import Mathlib

/-! The `pull` command of `img` (`pull.go`).

A shallow embedding of `pullCommand.Run`, `pullCommand.Register` and
`createSouceManager`.  Every call that leaves `pull.go` (the reference
library, buildkit's source and cache managers, the runc worker, go-units,
`fmt.Printf`, `unmount`, `handleSignals`) is answered by an environment
`Env`, and every such call is recorded, in program order, in a trace of
`Event`s.  Go errors are modelled by their message (`Error()`); a nilable
pointer is an `Option`.
-/

namespace Img

/-! ## Data model -/

/-- Modelled from the spec: the parsed image reference `name[:tag|@digest]`
of the reference library (`reference.Named`, not part of `pull.go`): a
normalized repository name with an optional tag and an optional digest. -/
structure Named where
  name : String
  tag : Option String
  digest : Option String
deriving DecidableEq, Repr

/-- Modelled from the spec: `reference.IsNameOnly`, "no tag or digest is
present". -/
def IsNameOnly (ref : Named) : Bool :=
  ref.tag.isNone && ref.digest.isNone

/-- Modelled from the spec: `reference.TagNameOnly`, "if no tag or digest is
present, default to the latest tag". -/
def TagNameOnly (ref : Named) : Named :=
  if IsNameOnly ref then { ref with tag := some "latest" } else ref

/-- Modelled from the spec: the normalized string form of a reference,
"normalized repository name + tag-or-digest" (`image.String()`). -/
def Named.String (ref : Named) : String :=
  ref.name
    ++ (match ref.tag with
        | some t => ":" ++ t
        | none => "")
    ++ (match ref.digest with
        | some d => "@" ++ d
        | none => "")

/-- The value of `source.Identifier` built by `source.NewImageIdentifier`. -/
structure Identifier where
  key : String
deriving DecidableEq, Repr

/-- The context threaded through the calls: session id and namespace. -/
structure Context where
  session : String
  namespace_ : String
deriving DecidableEq, Repr

/-- A `*fuse.Server` handle. -/
structure FuseServer where
  handle : Nat
deriving DecidableEq, Repr

/-- The fields of the worker options that `createSouceManager` reads. -/
structure WorkerOpt where
  Snapshotter : Nat
  MetadataStore : Nat
  ContentStore : Nat
  Applier : Nat
deriving DecidableEq, Repr

/-- The three results of `runc.NewWorkerOpt(stateDir, backend)`. -/
structure WorkerOptResult where
  opt : WorkerOpt
  fuseserver : Option FuseServer
  err : Option String
deriving DecidableEq, Repr

/-- The literal `cache.ManagerOpt` built in `createSouceManager`. -/
structure ManagerOpt where
  Snapshotter : Nat
  MetadataStore : Nat
deriving DecidableEq, Repr

/-- A cache manager (`cache.Manager`). -/
structure CacheManager where
  handle : Nat
deriving DecidableEq, Repr

/-- The literal `containerimage.SourceOpt` built in `createSouceManager`. -/
structure SourceOpt where
  Snapshotter : Nat
  ContentStore : Nat
  Applier : Nat
  CacheAccessor : CacheManager
deriving DecidableEq, Repr

/-- A `*source.Manager` handle. -/
structure Manager where
  handle : Nat
deriving DecidableEq, Repr

/-- A resolver (`source.Source`), here the container-image source. -/
structure Source where
  handle : Nat
deriving DecidableEq, Repr

/-- A resolved source instance (`source.SourceInstance`). -/
structure SourceInstance where
  handle : Nat
deriving DecidableEq, Repr

/-- A snapshot reference (`cache.ImmutableRef`): its `ID()` and the sizes of
the layers of its chain. -/
structure ImmutableRef where
  ID : String
  layers : List Int
deriving DecidableEq, Repr

/-- The receiver of the command. -/
structure pullCommand where
  image : String
deriving DecidableEq, Repr

/-- The calls that leave `pull.go`, as recorded in a trace. -/
inductive Event where
  | newContext (session ns : String)
  | parseNormalizedNamed (s : String)
  | newImageIdentifier (s : String)
  | newWorkerOpt (stateDir backend : String)
  | cacheNewManager (o : ManagerOpt)
  | sourceNewManager
  | newSource (o : SourceOpt)
  | register (sm : Manager) (src : Source)
  | handleSignals (fuseserver : Option FuseServer)
  | resolve (sm : Manager) (ctx : Context) (identifier : Identifier)
  | printf (line : String)
  | snapshot (si : SourceInstance) (ctx : Context)
  | size (ref : ImmutableRef) (ctx : Context)
  | unmount (fuseserver : Option FuseServer)
deriving DecidableEq, Repr

deriving instance DecidableEq for Except

/-- The answers of everything `pull.go` calls into.  A constructor that
follows the Go convention "value or error" answers with an `Except`. -/
structure Env where
  /-- Package variable `stateDir`. -/
  stateDir : String
  /-- Package variable `backend`. -/
  backend : String
  /-- Result of `identity.NewID()`. -/
  NewID : String
  /-- Constant `namespaces.Default`. -/
  namespacesDefault : String
  /-- Function `reference.ParseNormalizedNamed`. -/
  ParseNormalizedNamed : String → Except String Named
  /-- Function `source.NewImageIdentifier`. -/
  NewImageIdentifier : String → Except String Identifier
  /-- Function `runc.NewWorkerOpt`. -/
  NewWorkerOpt : String → String → WorkerOptResult
  /-- Function `cache.NewManager`. -/
  cacheNewManager : ManagerOpt → Except String CacheManager
  /-- Function `source.NewManager`. -/
  sourceNewManager : Except String Manager
  /-- Function `containerimage.NewSource`. -/
  NewSource : SourceOpt → Except String Source
  /-- Method `sm.Resolve(ctx, identifier)`. -/
  Resolve : Manager → Context → Identifier → Except String SourceInstance
  /-- Method `si.Snapshot(ctx)`. -/
  Snapshot : SourceInstance → Context → Except String ImmutableRef
  /-- Method `ref.Size(ctx)`. -/
  Size : ImmutableRef → Context → Except String Int
  /-- Function `units.BytesSize(float64(size))`. -/
  BytesSize : Int → String
  /-- The verb `%q` of `fmt` on a string. -/
  quote : String → String

/-- How a call ends: it returns its `error` result (`none` is `nil`), or it
panics on a nil pointer. -/
inductive Result where
  | returned (err : Option String)
  | panicked
deriving DecidableEq, Repr

/-- The three results of `createSouceManager` and the calls it made. -/
structure SMResult where
  trace : List Event
  sm : Option Manager
  fuseserver : Option FuseServer
  err : Option String
deriving DecidableEq, Repr

/-- What a call of `Run` leaves behind: the calls it made, in order, the
receiver, and how it ended. -/
structure Outcome where
  trace : List Event
  cmd : pullCommand
  result : Result
deriving DecidableEq, Repr

/-! ## The code -/

/-- The flag set handed to `Register`: the names of its flags. -/
abbrev FlagSet := List String

/-- Source: `func (cmd *pullCommand) Register(fs *flag.FlagSet) {}`. -/
def Register (_cmd : pullCommand) (fs : FlagSet) : FlagSet := fs

/-- Source: `func createSouceManager() (*source.Manager, *fuse.Server, error)`. -/
def createSouceManager (env : Env) : SMResult :=
  -- Create the runc worker.
  let w := env.NewWorkerOpt env.stateDir env.backend
  let t1 := [Event.newWorkerOpt env.stateDir env.backend]
  match w.err with
  | some e =>
    ⟨t1, none, w.fuseserver, some ("creating runc worker opt failed: " ++ e)⟩
  | none =>
    let mo : ManagerOpt := ⟨w.opt.Snapshotter, w.opt.MetadataStore⟩
    let t2 := t1 ++ [Event.cacheNewManager mo]
    match env.cacheNewManager mo with
    | .error e => ⟨t2, none, w.fuseserver, some e⟩
    | .ok cm =>
      let t3 := t2 ++ [Event.sourceNewManager]
      match env.sourceNewManager with
      | .error e => ⟨t3, none, w.fuseserver, some e⟩
      | .ok sm =>
        let so : SourceOpt := ⟨w.opt.Snapshotter, w.opt.ContentStore, w.opt.Applier, cm⟩
        let t4 := t3 ++ [Event.newSource so]
        match env.NewSource so with
        | .error e => ⟨t4, none, w.fuseserver, some e⟩
        | .ok is_ =>
          ⟨t4 ++ [Event.register sm is_], some sm, w.fuseserver, none⟩

/-- Source: `func (cmd *pullCommand) Run(args []string) (err error)`. -/
def Run (env : Env) (cmd : pullCommand) (args : List String) : Outcome :=
  match args with
  | [] => ⟨[], cmd, .returned (some "must pass an image or repository to pull")⟩
  | a :: _ =>
    -- Get the specified image.
    let cmd : pullCommand := { cmd with image := a }
    -- Create the context.
    let ctx : Context := ⟨env.NewID, env.namespacesDefault⟩
    let t1 := [Event.newContext env.NewID env.namespacesDefault,
               Event.parseNormalizedNamed cmd.image]
    -- Parse the repository name.
    match env.ParseNormalizedNamed cmd.image with
    | .error e =>
      ⟨t1, cmd, .returned (some ("not a valid image " ++ env.quote cmd.image ++ ": " ++ e))⟩
    | .ok image =>
      -- Add latest to the image name if it is empty.
      let image := TagNameOnly image
      -- Get the identifier for the image.
      let t2 := t1 ++ [Event.newImageIdentifier image.String]
      match env.NewImageIdentifier image.String with
      | .error e => ⟨t2, cmd, .returned (some e)⟩
      | .ok identifier =>
        -- Create the source manager; `defer unmount(fuseserver)`.
        let r := createSouceManager env
        let t3 := t2 ++ r.trace
        let deferred := [Event.unmount r.fuseserver]
        match r.err with
        | some e => ⟨t3 ++ deferred, cmd, .returned (some e)⟩
        | none =>
          let t4 := t3 ++ [Event.handleSignals r.fuseserver]
          match r.sm with
          | none => ⟨t4 ++ deferred, cmd, .panicked⟩
          | some sm =>
            -- Resolve (ie. pull) the image.
            let t5 := t4 ++ [Event.resolve sm ctx identifier]
            match env.Resolve sm ctx identifier with
            | .error e => ⟨t5 ++ deferred, cmd, .returned (some e)⟩
            | .ok si =>
              let t6 := t5 ++ [Event.printf ("Pulling " ++ cmd.image ++ "...\n"),
                               Event.snapshot si ctx]
              -- Snapshot the image.
              match env.Snapshot si ctx with
              | .error e => ⟨t6 ++ deferred, cmd, .returned (some e)⟩
              | .ok ref =>
                let t7 := t6 ++ [Event.printf ("Snapshot ref: " ++ ref.ID ++ "\n"),
                                 Event.size ref ctx]
                -- Get the size.
                match env.Size ref ctx with
                | .error e => ⟨t7 ++ deferred, cmd, .returned (some e)⟩
                | .ok size =>
                  ⟨t7 ++ [Event.printf ("Size: " ++ env.BytesSize size ++ "\n")] ++ deferred,
                    cmd, .returned none⟩

/-! ## Observations on traces -/

/-- The context `Run` builds. -/
def ctxOf (env : Env) : Context := ⟨env.NewID, env.namespacesDefault⟩

/-- The lines written to standard output, in order. -/
def stdout (t : List Event) : List String :=
  t.filterMap fun ev =>
    match ev with
    | .printf line => some line
    | _ => none

/-- The arguments of the calls of `unmount`, in order. -/
def unmounts (t : List Event) : List (Option FuseServer) :=
  t.filterMap fun ev =>
    match ev with
    | .unmount fs => some fs
    | _ => none

/-- The arguments of the calls of `handleSignals`, in order. -/
def hooks (t : List Event) : List (Option FuseServer) :=
  t.filterMap fun ev =>
    match ev with
    | .handleSignals fs => some fs
    | _ => none

/-- The registrations made on source managers, in order. -/
def registrations (t : List Event) : List (Manager × Source) :=
  t.filterMap fun ev =>
    match ev with
    | .register sm src => some (sm, src)
    | _ => none

/-- A call made inside `createSouceManager`. -/
def Event.isCreate : Event → Bool
  | .newWorkerOpt _ _ => true
  | .cacheNewManager _ => true
  | .sourceNewManager => true
  | .newSource _ => true
  | .register _ _ => true
  | _ => false

/-- A call of `Resolve`, `Snapshot` or `Size`. -/
def Event.isPull : Event → Bool
  | .resolve _ _ _ => true
  | .snapshot _ _ => true
  | .size _ _ => true
  | _ => false

/-- A call that reaches the network, the disk or standard output: all but
the creation of the context and the two pure calls on the reference. -/
def Event.isIO : Event → Bool
  | .newContext _ _ => false
  | .parseNormalizedNamed _ => false
  | .newImageIdentifier _ => false
  | _ => true

/-- A call of `reference.ParseNormalizedNamed`. -/
def Event.isParse : Event → Bool
  | .parseNormalizedNamed _ => true
  | _ => false

/-- The string `needle` occurs in the string `hay`. -/
def Contains (hay needle : String) : Prop := needle.data <:+: hay.data

instance (hay needle : String) : Decidable (Contains hay needle) := by
  unfold Contains; infer_instance

/-! ## The steps of a pull, as the specification lists them -/

/-- The steps of `Run` that can fail, in program order. -/
inductive Step where
  | argument
  | parse
  | identifier
  | sourceManager
  | resolve
  | snapshot
  | size
deriving DecidableEq, Repr

/-- The position of a step in the order of the program. -/
def Step.index : Step → Nat
  | .argument => 0
  | .parse => 1
  | .identifier => 2
  | .sourceManager => 3
  | .resolve => 4
  | .snapshot => 5
  | .size => 6

/-- All steps, in order. -/
def Step.all : List Step :=
  [.argument, .parse, .identifier, .sourceManager, .resolve, .snapshot, .size]

/-- The step a recorded call belongs to; the creation of the context, the
prints, the signal hook and the deferred unmount belong to none. -/
def Event.step : Event → Option Step
  | .parseNormalizedNamed _ => some .parse
  | .newImageIdentifier _ => some .identifier
  | .newWorkerOpt _ _ => some .sourceManager
  | .cacheNewManager _ => some .sourceManager
  | .sourceNewManager => some .sourceManager
  | .newSource _ => some .sourceManager
  | .register _ _ => some .sourceManager
  | .resolve _ _ _ => some .resolve
  | .snapshot _ _ => some .snapshot
  | .size _ _ => some .size
  | _ => none

/-- The normalized reference of a run, when the argument parses. -/
def imageOf (env : Env) (args : List String) : Option Named :=
  match args with
  | [] => none
  | a :: _ =>
    match env.ParseNormalizedNamed a with
    | .ok n => some (TagNameOnly n)
    | .error _ => none

/-- The identifier of a run, when it can be built. -/
def identifierOf (env : Env) (args : List String) : Option Identifier :=
  match imageOf env args with
  | none => none
  | some image =>
    match env.NewImageIdentifier image.String with
    | .ok id => some id
    | .error _ => none

/-- The source instance of a run, when `Resolve` can be called and succeeds. -/
def instanceOf (env : Env) (args : List String) : Option SourceInstance :=
  match identifierOf env args, (createSouceManager env).err, (createSouceManager env).sm with
  | some id, none, some sm =>
    match env.Resolve sm (ctxOf env) id with
    | .ok si => some si
    | .error _ => none
  | _, _, _ => none

/-- The snapshot of a run, when `Snapshot` can be called and succeeds. -/
def refOf (env : Env) (args : List String) : Option ImmutableRef :=
  match instanceOf env args with
  | none => none
  | some si =>
    match env.Snapshot si (ctxOf env) with
    | .ok ref => some ref
    | .error _ => none

/-- The size of the snapshot of a run, when `Size` can be called and succeeds. -/
def sizeOf (env : Env) (args : List String) : Option Int :=
  match refOf env args with
  | none => none
  | some ref =>
    match env.Size ref (ctxOf env) with
    | .ok size => some size
    | .error _ => none

/-- The error of a step, were it run on what the steps before it produce
(`none`: it succeeds, or it lacks its input). -/
def stepError (env : Env) (args : List String) : Step → Option String
  | .argument =>
    match args with
    | [] => some "must pass an image or repository to pull"
    | _ :: _ => none
  | .parse =>
    match args with
    | [] => none
    | a :: _ =>
      match env.ParseNormalizedNamed a with
      | .ok _ => none
      | .error e => some ("not a valid image " ++ env.quote a ++ ": " ++ e)
  | .identifier =>
    match imageOf env args with
    | none => none
    | some image =>
      match env.NewImageIdentifier image.String with
      | .ok _ => none
      | .error e => some e
  | .sourceManager => (createSouceManager env).err
  | .resolve =>
    match identifierOf env args, (createSouceManager env).sm with
    | some id, some sm =>
      match env.Resolve sm (ctxOf env) id with
      | .ok _ => none
      | .error e => some e
    | _, _ => none
  | .snapshot =>
    match instanceOf env args with
    | none => none
    | some si =>
      match env.Snapshot si (ctxOf env) with
      | .ok _ => none
      | .error e => some e
  | .size =>
    match refOf env args with
    | none => none
    | some ref =>
      match env.Size ref (ctxOf env) with
      | .ok _ => none
      | .error e => some e

/-- The first step, in program order, that fails, with its error. -/
def firstFailure (env : Env) (args : List String) : Option (Step × String) :=
  Step.all.findSome? fun s => (stepError env args s).map fun e => (s, e)

/-- The three lines of a successful pull. -/
def pullLines (ref id human : String) : List String :=
  ["Pulling " ++ ref ++ "...\n", "Snapshot ref: " ++ id ++ "\n", "Size: " ++ human ++ "\n"]

/-- The three lines a run would print, from the reference as supplied, the
ID of its snapshot and the rendering of its size (empty where the run does
not get that far). -/
def expectedLines (env : Env) (args : List String) : List String :=
  pullLines (args.headD "")
    (match refOf env args with
     | some ref => ref.ID
     | none => "")
    (match sizeOf env args with
     | some size => env.BytesSize size
     | none => "")

/-- The identifiers handed to `Resolve`, in order. -/
def resolved (t : List Event) : List Identifier :=
  t.filterMap fun ev =>
    match ev with
    | .resolve _ _ id => some id
    | _ => none

/-- The strings handed to `source.NewImageIdentifier`, in order. -/
def identified (t : List Event) : List String :=
  t.filterMap fun ev =>
    match ev with
    | .newImageIdentifier s => some s
    | _ => none

/-- Every call of the trace that belongs to a step belongs to one at
position `k` or before. -/
def stepsUpTo (k : Nat) (t : List Event) : Prop :=
  ∀ ev ∈ t, ∀ s, ev.step = some s → s.index ≤ k

/-! ## The size of a chain and its rendering -/

/-- Modelled from the spec: `Size` of the cache manager, which is not part of
`pull.go`: "sum of the uncompressed sizes of all layers in the chain". -/
def chainSize (layers : List Int) : Int := layers.sum

/-- The unit names of go-units for base 1024 (`binaryAbbrs`). -/
def binaryAbbrs : List String :=
  ["B", "KiB", "MiB", "GiB", "TiB", "PiB", "EiB", "ZiB", "YiB"]

/-- The loop of `getSizeAndUnit` of go-units for base 1024, on the exact value
`n / 1024 ^ i`: `for size >= base && i < unitsLimit`, with `fuel` the
distance of `i` to `unitsLimit`; the result is the final `i`. -/
def getSizeAndUnit (n : Nat) : Nat → Nat → Nat
  | i, 0 => i
  | i, fuel + 1 => if n ≥ 1024 ^ (i + 1) then getSizeAndUnit n (i + 1) fuel else i

/-- The decimal digit of the units of `k`. -/
def digitChar (k : Nat) : Char :=
  match k % 10 with
  | 0 => '0' | 1 => '1' | 2 => '2' | 3 => '3' | 4 => '4'
  | 5 => '5' | 6 => '6' | 7 => '7' | 8 => '8' | _ => '9'

/-- The last `w` decimal digits of `k`. -/
def digitsW : Nat → Nat → List Char
  | 0, _ => []
  | w + 1, k => digitsW w (k / 10) ++ [digitChar k]

/-- Drops the trailing zeros of a fraction `f` of `w` digits. -/
def stripZeros : Nat → Nat → Nat × Nat
  | 0, f => (0, f)
  | w + 1, f => if f % 10 = 0 then stripZeros w (f / 10) else (w + 1, f)

/-- The verb `%.4g` of `fmt` on the exact value `n / d`, for `n = 0` or
`1 ≤ n / d < 9999.5` (all that `BytesSize` passes for a size a `float64`
holds exactly): four significant digits, ties to even, trailing zeros
dropped. -/
def formatG4 (n d : Nat) : String :=
  if n = 0 then "0" else
  let x := if n ≥ 1000 * d then 3 else if n ≥ 100 * d then 2 else if n ≥ 10 * d then 1 else 0
  let p := 10 ^ (3 - x)
  let q := n * p / d
  let r := n * p % d
  let q := if 2 * r > d ∨ (2 * r = d ∧ q % 2 = 1) then q + 1 else q
  let x := if q ≥ 10000 then x + 1 else x
  let q := if q ≥ 10000 then q / 10 else q
  let ip := q / 10 ^ (3 - x)
  let (w, f) := stripZeros (3 - x) (q % 10 ^ (3 - x))
  String.mk (digitsW (x + 1) ip ++ (if w = 0 then [] else '.' :: digitsW w f))

/-- The function `units.BytesSize` of go-units (a dependency, not part of
`pull.go`), `CustomSize("%.4g%s", size, 1024.0, binaryAbbrs)`, on a size
below `2 ^ 53`, where the conversion to `float64` and the divisions by
1024 are exact. -/
def BytesSize (size : Nat) : String :=
  let i := getSizeAndUnit size 0 8
  formatG4 size (1024 ^ i) ++ binaryAbbrs.getD i ""

/-! ## A concrete environment: the example of the specification -/

/-- The example scenario: `library/alpine` parses to the bare name
`docker.io/library/alpine`, every step succeeds, the snapshot has three
layers of 2,811,567, 0 and 4,413 bytes, `Size` is their sum and the size is
rendered by `BytesSize`. -/
def alpineEnv : Env where
  stateDir := "/tmp/img"
  backend := "fuse-overlayfs"
  NewID := "session"
  namespacesDefault := "default"
  ParseNormalizedNamed := fun s =>
    if s = "library/alpine" then .ok ⟨"docker.io/library/alpine", none, none⟩
    else if s = "library/alpine:latest" then .ok ⟨"docker.io/library/alpine", some "latest", none⟩
    else .error "invalid reference format"
  NewImageIdentifier := fun s => .ok ⟨s⟩
  NewWorkerOpt := fun _ _ => ⟨⟨1, 2, 3, 4⟩, some ⟨7⟩, none⟩
  cacheNewManager := fun _ => .ok ⟨5⟩
  sourceNewManager := .ok ⟨6⟩
  NewSource := fun _ => .ok ⟨8⟩
  Resolve := fun _ _ _ => .ok ⟨9⟩
  Snapshot := fun _ _ => .ok ⟨"sha256:a1", [2811567, 0, 4413]⟩
  Size := fun ref _ => .ok (chainSize ref.layers)
  BytesSize := fun size => BytesSize size.toNat
  quote := fun s => "\"" ++ s ++ "\""

/-- The example scenario with a registry that cannot be reached. -/
def offlineEnv : Env :=
  { alpineEnv with Resolve := fun _ _ _ => .error "connection refused" }

/-- The example scenario with a worker that cannot be created. -/
def noWorkerEnv : Env :=
  { alpineEnv with NewWorkerOpt := fun _ _ => ⟨⟨0, 0, 0, 0⟩, none, some "no runc"⟩ }

/-! ## The paths of `createSouceManager` and of `Run` -/

/-- The `cache.ManagerOpt` literal of `createSouceManager`. -/
def managerOptOf (env : Env) : ManagerOpt :=
  ⟨(env.NewWorkerOpt env.stateDir env.backend).opt.Snapshotter,
   (env.NewWorkerOpt env.stateDir env.backend).opt.MetadataStore⟩

/-- The `containerimage.SourceOpt` literal of `createSouceManager`. -/
def sourceOptOf (env : Env) (cm : CacheManager) : SourceOpt :=
  ⟨(env.NewWorkerOpt env.stateDir env.backend).opt.Snapshotter,
   (env.NewWorkerOpt env.stateDir env.backend).opt.ContentStore,
   (env.NewWorkerOpt env.stateDir env.backend).opt.Applier, cm⟩

/-- The calls of a complete `createSouceManager`, in order. -/
def createCalls (env : Env) (cm : CacheManager) (sm : Manager) (src : Source) : List Event :=
  [.newWorkerOpt env.stateDir env.backend, .cacheNewManager (managerOptOf env),
   .sourceNewManager, .newSource (sourceOptOf env cm), .register sm src]

/-- The calls of `Run` up to the parse of the reference. -/
def tHead (env : Env) (a : String) : List Event :=
  [.newContext env.NewID env.namespacesDefault, .parseNormalizedNamed a]

/-- The calls of `Run` up to the construction of the identifier. -/
def tIdent (env : Env) (a : String) (n : Named) : List Event :=
  tHead env a ++ [.newImageIdentifier (TagNameOnly n).String]

/-- The calls of `Run` up to the end of `createSouceManager`. -/
def tCreate (env : Env) (a : String) (n : Named) : List Event :=
  tIdent env a n ++ (createSouceManager env).trace

/-- The calls of `Run` up to `Resolve`. -/
def tResolve (env : Env) (a : String) (n : Named) (sm : Manager) (id : Identifier) :
    List Event :=
  tCreate env a n ++ [.handleSignals (createSouceManager env).fuseserver,
    .resolve sm (ctxOf env) id]

/-- The calls of `Run` up to `Snapshot`. -/
def tSnapshot (env : Env) (a : String) (n : Named) (sm : Manager) (id : Identifier)
    (si : SourceInstance) : List Event :=
  tResolve env a n sm id ++ [.printf ("Pulling " ++ a ++ "...\n"), .snapshot si (ctxOf env)]

/-- The calls of `Run` up to `Size`. -/
def tSize (env : Env) (a : String) (n : Named) (sm : Manager) (id : Identifier)
    (si : SourceInstance) (ref : ImmutableRef) : List Event :=
  tSnapshot env a n sm id si
    ++ [.printf ("Snapshot ref: " ++ ref.ID ++ "\n"), .size ref (ctxOf env)]

/-- The deferred call of `unmount`. -/
def tDefer (env : Env) : List Event := [.unmount (createSouceManager env).fuseserver]

theorem createSouceManager_cases (env : Env) :
    (∃ e, (env.NewWorkerOpt env.stateDir env.backend).err = some e ∧
      createSouceManager env =
        ⟨[.newWorkerOpt env.stateDir env.backend], none,
          (env.NewWorkerOpt env.stateDir env.backend).fuseserver,
          some ("creating runc worker opt failed: " ++ e)⟩)
    ∨ (∃ e, (env.NewWorkerOpt env.stateDir env.backend).err = none ∧
      env.cacheNewManager (managerOptOf env) = .error e ∧
      createSouceManager env =
        ⟨[.newWorkerOpt env.stateDir env.backend, .cacheNewManager (managerOptOf env)], none,
          (env.NewWorkerOpt env.stateDir env.backend).fuseserver, some e⟩)
    ∨ (∃ cm e, (env.NewWorkerOpt env.stateDir env.backend).err = none ∧
      env.cacheNewManager (managerOptOf env) = .ok cm ∧
      env.sourceNewManager = .error e ∧
      createSouceManager env =
        ⟨[.newWorkerOpt env.stateDir env.backend, .cacheNewManager (managerOptOf env),
          .sourceNewManager], none,
          (env.NewWorkerOpt env.stateDir env.backend).fuseserver, some e⟩)
    ∨ (∃ cm sm e, (env.NewWorkerOpt env.stateDir env.backend).err = none ∧
      env.cacheNewManager (managerOptOf env) = .ok cm ∧
      env.sourceNewManager = .ok sm ∧
      env.NewSource (sourceOptOf env cm) = .error e ∧
      createSouceManager env =
        ⟨[.newWorkerOpt env.stateDir env.backend, .cacheNewManager (managerOptOf env),
          .sourceNewManager, .newSource (sourceOptOf env cm)], none,
          (env.NewWorkerOpt env.stateDir env.backend).fuseserver, some e⟩)
    ∨ (∃ cm sm src, (env.NewWorkerOpt env.stateDir env.backend).err = none ∧
      env.cacheNewManager (managerOptOf env) = .ok cm ∧
      env.sourceNewManager = .ok sm ∧
      env.NewSource (sourceOptOf env cm) = .ok src ∧
      createSouceManager env =
        ⟨createCalls env cm sm src, some sm,
          (env.NewWorkerOpt env.stateDir env.backend).fuseserver, none⟩) := by
  cases hw : (env.NewWorkerOpt env.stateDir env.backend).err with
  | some e => left; exact ⟨e, rfl, by simp [createSouceManager, hw]⟩
  | none =>
    right
    cases hc : env.cacheNewManager (managerOptOf env) with
    | error e =>
      left
      refine ⟨e, rfl, rfl, ?_⟩
      simp only [managerOptOf] at hc
      simp [createSouceManager, hw, hc, managerOptOf]
    | ok cm =>
      right
      cases hs : env.sourceNewManager with
      | error e =>
        left
        refine ⟨cm, e, rfl, rfl, rfl, ?_⟩
        simp only [managerOptOf] at hc
        simp [createSouceManager, hw, hc, hs, managerOptOf]
      | ok sm =>
        right
        cases hn : env.NewSource (sourceOptOf env cm) with
        | error e =>
          left
          refine ⟨cm, sm, e, rfl, rfl, rfl, hn, ?_⟩
          simp only [managerOptOf] at hc
          simp only [sourceOptOf] at hn
          simp [createSouceManager, hw, hc, hs, hn, managerOptOf, sourceOptOf]
        | ok src =>
          right
          refine ⟨cm, sm, src, rfl, rfl, rfl, hn, ?_⟩
          simp only [managerOptOf] at hc
          simp only [sourceOptOf] at hn
          simp [createSouceManager, hw, hc, hs, hn, managerOptOf, sourceOptOf, createCalls]

theorem createSouceManager_fuseserver (env : Env) :
    (createSouceManager env).fuseserver
      = (env.NewWorkerOpt env.stateDir env.backend).fuseserver := by
  rcases createSouceManager_cases env with ⟨e, _, h⟩ | ⟨e, _, _, h⟩ | ⟨cm, e, _, _, _, h⟩ |
    ⟨cm, sm, e, _, _, _, _, h⟩ | ⟨cm, sm, src, _, _, _, _, h⟩ <;> rw [h]

theorem createSouceManager_sm_none_iff (env : Env) :
    (createSouceManager env).sm = none ↔ (createSouceManager env).err ≠ none := by
  rcases createSouceManager_cases env with ⟨e, _, h⟩ | ⟨e, _, _, h⟩ | ⟨cm, e, _, _, _, h⟩ |
    ⟨cm, sm, e, _, _, _, _, h⟩ | ⟨cm, sm, src, _, _, _, _, h⟩ <;> rw [h] <;> simp

theorem createSouceManager_trace_head (env : Env) :
    ∃ rest, (createSouceManager env).trace
      = Event.newWorkerOpt env.stateDir env.backend :: rest := by
  rcases createSouceManager_cases env with ⟨e, _, h⟩ | ⟨e, _, _, h⟩ | ⟨cm, e, _, _, _, h⟩ |
    ⟨cm, sm, e, _, _, _, _, h⟩ | ⟨cm, sm, src, _, _, _, _, h⟩ <;> rw [h] <;>
    simp [createCalls]

theorem Run_cases (env : Env) (cmd : pullCommand) (args : List String) :
    (args = [] ∧ Run env cmd args
        = ⟨[], cmd, .returned (some "must pass an image or repository to pull")⟩)
    ∨ (∃ a rest e, args = a :: rest ∧ env.ParseNormalizedNamed a = .error e ∧
        Run env cmd args = ⟨tHead env a, ⟨a⟩,
          .returned (some ("not a valid image " ++ env.quote a ++ ": " ++ e))⟩)
    ∨ (∃ a rest n e, args = a :: rest ∧ env.ParseNormalizedNamed a = .ok n ∧
        env.NewImageIdentifier (TagNameOnly n).String = .error e ∧
        Run env cmd args = ⟨tIdent env a n, ⟨a⟩, .returned (some e)⟩)
    ∨ (∃ a rest n id e, args = a :: rest ∧ env.ParseNormalizedNamed a = .ok n ∧
        env.NewImageIdentifier (TagNameOnly n).String = .ok id ∧
        (createSouceManager env).err = some e ∧
        Run env cmd args = ⟨tCreate env a n ++ tDefer env, ⟨a⟩, .returned (some e)⟩)
    ∨ (∃ a rest n id sm e, args = a :: rest ∧ env.ParseNormalizedNamed a = .ok n ∧
        env.NewImageIdentifier (TagNameOnly n).String = .ok id ∧
        (createSouceManager env).err = none ∧ (createSouceManager env).sm = some sm ∧
        env.Resolve sm (ctxOf env) id = .error e ∧
        Run env cmd args = ⟨tResolve env a n sm id ++ tDefer env, ⟨a⟩, .returned (some e)⟩)
    ∨ (∃ a rest n id sm si e, args = a :: rest ∧ env.ParseNormalizedNamed a = .ok n ∧
        env.NewImageIdentifier (TagNameOnly n).String = .ok id ∧
        (createSouceManager env).err = none ∧ (createSouceManager env).sm = some sm ∧
        env.Resolve sm (ctxOf env) id = .ok si ∧
        env.Snapshot si (ctxOf env) = .error e ∧
        Run env cmd args
          = ⟨tSnapshot env a n sm id si ++ tDefer env, ⟨a⟩, .returned (some e)⟩)
    ∨ (∃ a rest n id sm si ref e, args = a :: rest ∧ env.ParseNormalizedNamed a = .ok n ∧
        env.NewImageIdentifier (TagNameOnly n).String = .ok id ∧
        (createSouceManager env).err = none ∧ (createSouceManager env).sm = some sm ∧
        env.Resolve sm (ctxOf env) id = .ok si ∧
        env.Snapshot si (ctxOf env) = .ok ref ∧
        env.Size ref (ctxOf env) = .error e ∧
        Run env cmd args
          = ⟨tSize env a n sm id si ref ++ tDefer env, ⟨a⟩, .returned (some e)⟩)
    ∨ (∃ a rest n id sm si ref size, args = a :: rest ∧ env.ParseNormalizedNamed a = .ok n ∧
        env.NewImageIdentifier (TagNameOnly n).String = .ok id ∧
        (createSouceManager env).err = none ∧ (createSouceManager env).sm = some sm ∧
        env.Resolve sm (ctxOf env) id = .ok si ∧
        env.Snapshot si (ctxOf env) = .ok ref ∧
        env.Size ref (ctxOf env) = .ok size ∧
        Run env cmd args
          = ⟨tSize env a n sm id si ref
              ++ [.printf ("Size: " ++ env.BytesSize size ++ "\n")] ++ tDefer env,
             ⟨a⟩, .returned none⟩) := by
  cases args with
  | nil => left; exact ⟨rfl, rfl⟩
  | cons a rest =>
    right
    cases hp : env.ParseNormalizedNamed a with
    | error e => left; exact ⟨a, rest, e, rfl, hp, by simp [Run, hp, tHead]⟩
    | ok n =>
      right
      cases hi : env.NewImageIdentifier (TagNameOnly n).String with
      | error e => left; exact ⟨a, rest, n, e, rfl, hp, hi, by simp [Run, hp, hi, tIdent, tHead]⟩
      | ok id =>
        right
        cases he : (createSouceManager env).err with
        | some e =>
          left
          exact ⟨a, rest, n, id, e, rfl, hp, hi, rfl,
            by simp [Run, hp, hi, he, tCreate, tIdent, tHead, tDefer]⟩
        | none =>
          right
          cases hsm : (createSouceManager env).sm with
          | none =>
            exact absurd he ((createSouceManager_sm_none_iff env).mp hsm)
          | some sm =>
            cases hr : env.Resolve sm (ctxOf env) id with
            | error e =>
              left
              simp only [ctxOf] at hr
              exact ⟨a, rest, n, id, sm, e, rfl, hp, hi, rfl, rfl, hr,
                by simp [Run, hp, hi, he, hsm, hr, tResolve, tCreate, tIdent, tHead, tDefer,
                  ctxOf]⟩
            | ok si =>
              right
              cases hs : env.Snapshot si (ctxOf env) with
              | error e =>
                left
                simp only [ctxOf] at hr hs
                exact ⟨a, rest, n, id, sm, si, e, rfl, hp, hi, rfl, rfl, hr, hs,
                  by simp [Run, hp, hi, he, hsm, hr, hs, tSnapshot, tResolve, tCreate, tIdent,
                    tHead, tDefer, ctxOf]⟩
              | ok ref =>
                right
                cases hz : env.Size ref (ctxOf env) with
                | error e =>
                  left
                  simp only [ctxOf] at hr hs hz
                  exact ⟨a, rest, n, id, sm, si, ref, e, rfl, hp, hi, rfl, rfl, hr, hs, hz,
                    by simp [Run, hp, hi, he, hsm, hr, hs, hz, tSize, tSnapshot, tResolve,
                      tCreate, tIdent, tHead, tDefer, ctxOf]⟩
                | ok size =>
                  right
                  simp only [ctxOf] at hr hs hz
                  exact ⟨a, rest, n, id, sm, si, ref, size, rfl, hp, hi, rfl, rfl, hr, hs, hz,
                    by simp [Run, hp, hi, he, hsm, hr, hs, hz, tSize, tSnapshot, tResolve,
                      tCreate, tIdent, tHead, tDefer, ctxOf]⟩

/-! ## Projections of the trace -/

theorem stdout_append (s t : List Event) : stdout (s ++ t) = stdout s ++ stdout t := by
  simp [stdout, List.filterMap_append]

theorem unmounts_append (s t : List Event) : unmounts (s ++ t) = unmounts s ++ unmounts t := by
  simp [unmounts, List.filterMap_append]

theorem hooks_append (s t : List Event) : hooks (s ++ t) = hooks s ++ hooks t := by
  simp [hooks, List.filterMap_append]

theorem resolved_append (s t : List Event) : resolved (s ++ t) = resolved s ++ resolved t := by
  simp [resolved, List.filterMap_append]

theorem identified_append (s t : List Event) :
    identified (s ++ t) = identified s ++ identified t := by
  simp [identified, List.filterMap_append]

theorem stdout_create (env : Env) : stdout (createSouceManager env).trace = [] := by
  rcases createSouceManager_cases env with ⟨e, _, h⟩ | ⟨e, _, _, h⟩ | ⟨cm, e, _, _, _, h⟩ |
    ⟨cm, sm, e, _, _, _, _, h⟩ | ⟨cm, sm, src, _, _, _, _, h⟩ <;> rw [h] <;>
    simp [createCalls, stdout]

theorem unmounts_create (env : Env) : unmounts (createSouceManager env).trace = [] := by
  rcases createSouceManager_cases env with ⟨e, _, h⟩ | ⟨e, _, _, h⟩ | ⟨cm, e, _, _, _, h⟩ |
    ⟨cm, sm, e, _, _, _, _, h⟩ | ⟨cm, sm, src, _, _, _, _, h⟩ <;> rw [h] <;>
    simp [createCalls, unmounts]

theorem hooks_create (env : Env) : hooks (createSouceManager env).trace = [] := by
  rcases createSouceManager_cases env with ⟨e, _, h⟩ | ⟨e, _, _, h⟩ | ⟨cm, e, _, _, _, h⟩ |
    ⟨cm, sm, e, _, _, _, _, h⟩ | ⟨cm, sm, src, _, _, _, _, h⟩ <;> rw [h] <;>
    simp [createCalls, hooks]

theorem resolved_create (env : Env) : resolved (createSouceManager env).trace = [] := by
  rcases createSouceManager_cases env with ⟨e, _, h⟩ | ⟨e, _, _, h⟩ | ⟨cm, e, _, _, _, h⟩ |
    ⟨cm, sm, e, _, _, _, _, h⟩ | ⟨cm, sm, src, _, _, _, _, h⟩ <;> rw [h] <;>
    simp [createCalls, resolved]

theorem identified_create (env : Env) : identified (createSouceManager env).trace = [] := by
  rcases createSouceManager_cases env with ⟨e, _, h⟩ | ⟨e, _, _, h⟩ | ⟨cm, e, _, _, _, h⟩ |
    ⟨cm, sm, e, _, _, _, _, h⟩ | ⟨cm, sm, src, _, _, _, _, h⟩ <;> rw [h] <;>
    simp [createCalls, identified]

theorem isPull_create (env : Env) :
    ∀ ev ∈ (createSouceManager env).trace, ev.isPull = false := by
  rcases createSouceManager_cases env with ⟨e, _, h⟩ | ⟨e, _, _, h⟩ | ⟨cm, e, _, _, _, h⟩ |
    ⟨cm, sm, e, _, _, _, _, h⟩ | ⟨cm, sm, src, _, _, _, _, h⟩ <;> rw [h] <;>
    simp [createCalls, Event.isPull]

theorem step_create (env : Env) :
    ∀ ev ∈ (createSouceManager env).trace, ev.step = some Step.sourceManager := by
  rcases createSouceManager_cases env with ⟨e, _, h⟩ | ⟨e, _, _, h⟩ | ⟨cm, e, _, _, _, h⟩ |
    ⟨cm, sm, e, _, _, _, _, h⟩ | ⟨cm, sm, src, _, _, _, _, h⟩ <;> rw [h] <;>
    simp [createCalls, Event.step]

theorem exists_isCreate (env : Env) :
    ∃ ev ∈ (createSouceManager env).trace, ev.isCreate = true := by
  obtain ⟨rest, h⟩ := createSouceManager_trace_head env
  exact ⟨Event.newWorkerOpt env.stateDir env.backend,
    by rw [h]; exact List.mem_cons_self _ _, rfl⟩

/-! ## The steps in a trace -/

theorem stepsUpTo_append {k : Nat} {s t : List Event} (hs : stepsUpTo k s)
    (ht : stepsUpTo k t) : stepsUpTo k (s ++ t) := by
  intro ev hev
  rcases List.mem_append.mp hev with h | h
  · exact hs ev h
  · exact ht ev h

theorem stepsUpTo_mono {j k : Nat} {t : List Event} (hjk : j ≤ k) (h : stepsUpTo j t) :
    stepsUpTo k t :=
  fun ev hev s hs => Nat.le_trans (h ev hev s hs) hjk

theorem stepsUpTo_tHead (env : Env) (a : String) : stepsUpTo 1 (tHead env a) := by
  intro ev hev s hs
  simp only [tHead, List.mem_cons, List.mem_singleton, List.not_mem_nil, or_false] at hev
  rcases hev with rfl | rfl <;> simp [Event.step] at hs
  subst hs; decide

theorem stepsUpTo_tIdent (env : Env) (a : String) (n : Named) :
    stepsUpTo 2 (tIdent env a n) := by
  refine stepsUpTo_append (stepsUpTo_mono (by decide) (stepsUpTo_tHead env a)) ?_
  intro ev hev s hs
  simp only [List.mem_singleton] at hev
  subst hev
  simp [Event.step] at hs
  subst hs; decide

theorem stepsUpTo_tCreate (env : Env) (a : String) (n : Named) :
    stepsUpTo 3 (tCreate env a n) := by
  refine stepsUpTo_append (stepsUpTo_mono (by decide) (stepsUpTo_tIdent env a n)) ?_
  intro ev hev s hs
  rw [step_create env ev hev] at hs
  cases hs; decide

theorem stepsUpTo_tResolve (env : Env) (a : String) (n : Named) (sm : Manager)
    (id : Identifier) : stepsUpTo 4 (tResolve env a n sm id) := by
  refine stepsUpTo_append (stepsUpTo_mono (by decide) (stepsUpTo_tCreate env a n)) ?_
  intro ev hev s hs
  simp only [List.mem_cons, List.mem_singleton, List.not_mem_nil, or_false] at hev
  rcases hev with rfl | rfl <;> simp [Event.step] at hs
  subst hs; decide

theorem stepsUpTo_tSnapshot (env : Env) (a : String) (n : Named) (sm : Manager)
    (id : Identifier) (si : SourceInstance) : stepsUpTo 5 (tSnapshot env a n sm id si) := by
  refine stepsUpTo_append (stepsUpTo_mono (by decide) (stepsUpTo_tResolve env a n sm id)) ?_
  intro ev hev s hs
  simp only [List.mem_cons, List.mem_singleton, List.not_mem_nil, or_false] at hev
  rcases hev with rfl | rfl <;> simp [Event.step] at hs
  subst hs; decide

theorem stepsUpTo_tDefer (env : Env) (k : Nat) : stepsUpTo k (tDefer env) := by
  intro ev hev s hs
  simp only [tDefer, List.mem_singleton] at hev
  subst hev
  simp [Event.step] at hs

theorem firstFailure_eq_none_iff (env : Env) (args : List String) :
    firstFailure env args = none ↔ ∀ s, stepError env args s = none := by
  constructor
  · intro h s
    simp only [firstFailure, Step.all, List.findSome?_eq_none_iff, List.mem_cons,
      List.mem_singleton, List.not_mem_nil, or_false] at h
    have hs := h s (by cases s <;> simp)
    cases hx : stepError env args s with
    | none => rfl
    | some e => rw [hx] at hs; cases hs
  · intro h
    simp [firstFailure, Step.all, h]

/-! ## The result of a run -/

theorem Run_result_and_steps (env : Env) (cmd : pullCommand) (args : List String) :
    (Run env cmd args).result = .returned ((firstFailure env args).map Prod.snd)
      ∧ (∀ s e, firstFailure env args = some (s, e) →
          stepsUpTo s.index (Run env cmd args).trace) := by
  rcases Run_cases env cmd args with ⟨ha, h⟩ | ⟨a, rest, e, ha, hp, h⟩ |
    ⟨a, rest, n, e, ha, hp, hi, h⟩ | ⟨a, rest, n, id, e, ha, hp, hi, he, h⟩ |
    ⟨a, rest, n, id, sm, e, ha, hp, hi, he, hsm, hr, h⟩ |
    ⟨a, rest, n, id, sm, si, e, ha, hp, hi, he, hsm, hr, hs, h⟩ |
    ⟨a, rest, n, id, sm, si, ref, e, ha, hp, hi, he, hsm, hr, hs, hz, h⟩ |
    ⟨a, rest, n, id, sm, si, ref, size, ha, hp, hi, he, hsm, hr, hs, hz, h⟩
  · subst ha
    have hff : firstFailure env []
        = some (.argument, "must pass an image or repository to pull") := by
      simp [firstFailure, Step.all, stepError]
    refine ⟨by rw [h, hff]; rfl, ?_⟩
    intro s e1 hs1
    rw [h]
    intro ev hev
    cases hev
  · subst ha
    have hff : firstFailure env (a :: rest)
        = some (.parse, "not a valid image " ++ env.quote a ++ ": " ++ e) := by
      simp [firstFailure, Step.all, stepError, hp]
    refine ⟨by rw [h, hff]; rfl, ?_⟩
    intro s e1 hs1
    rw [hff] at hs1; cases hs1
    rw [h]
    exact stepsUpTo_tHead env a
  · subst ha
    have hff : firstFailure env (a :: rest) = some (.identifier, e) := by
      simp [firstFailure, Step.all, stepError, imageOf, hp, hi]
    refine ⟨by rw [h, hff]; rfl, ?_⟩
    intro s e1 hs1
    rw [hff] at hs1; cases hs1
    rw [h]
    exact stepsUpTo_tIdent env a n
  · subst ha
    have hff : firstFailure env (a :: rest) = some (.sourceManager, e) := by
      simp [firstFailure, Step.all, stepError, imageOf, hp, hi, he]
    refine ⟨by rw [h, hff]; rfl, ?_⟩
    intro s e1 hs1
    rw [hff] at hs1; cases hs1
    rw [h]
    exact stepsUpTo_append (stepsUpTo_tCreate env a n) (stepsUpTo_tDefer env _)
  · subst ha
    have hff : firstFailure env (a :: rest) = some (.resolve, e) := by
      simp [firstFailure, Step.all, stepError, imageOf, identifierOf, hp, hi, he, hsm, hr]
    refine ⟨by rw [h, hff]; rfl, ?_⟩
    intro s e1 hs1
    rw [hff] at hs1; cases hs1
    rw [h]
    exact stepsUpTo_append (stepsUpTo_tResolve env a n sm id) (stepsUpTo_tDefer env _)
  · subst ha
    have hff : firstFailure env (a :: rest) = some (.snapshot, e) := by
      simp [firstFailure, Step.all, stepError, imageOf, identifierOf, instanceOf, hp, hi, he,
        hsm, hr, hs]
    refine ⟨by rw [h, hff]; rfl, ?_⟩
    intro s e1 hs1
    rw [hff] at hs1; cases hs1
    rw [h]
    exact stepsUpTo_append (stepsUpTo_tSnapshot env a n sm id si) (stepsUpTo_tDefer env _)
  · subst ha
    have hff : firstFailure env (a :: rest) = some (.size, e) := by
      simp [firstFailure, Step.all, stepError, imageOf, identifierOf, instanceOf, refOf, hp,
        hi, he, hsm, hr, hs, hz]
    refine ⟨by rw [h, hff]; rfl, ?_⟩
    intro s e1 hs1
    rw [hff] at hs1; cases hs1
    intro ev _ s _
    cases s <;> decide
  · subst ha
    have hff : firstFailure env (a :: rest) = none := by
      simp [firstFailure, Step.all, stepError, imageOf, identifierOf, instanceOf, refOf, hp,
        hi, he, hsm, hr, hs, hz]
    refine ⟨by rw [h, hff]; rfl, ?_⟩
    intro s e1 hs1
    rw [hff] at hs1; cases hs1

/-! ## What a run hands to the identifier and to `Resolve` -/

theorem identified_Run (env : Env) (cmd : pullCommand) (args : List String) :
    identified (Run env cmd args).trace
      = (match imageOf env args with
         | some image => [image.String]
         | none => []) := by
  rcases Run_cases env cmd args with ⟨ha, h⟩ | ⟨a, rest, e, ha, hp, h⟩ |
    ⟨a, rest, n, e, ha, hp, hi, h⟩ | ⟨a, rest, n, id, e, ha, hp, hi, he, h⟩ |
    ⟨a, rest, n, id, sm, e, ha, hp, hi, he, hsm, hr, h⟩ |
    ⟨a, rest, n, id, sm, si, e, ha, hp, hi, he, hsm, hr, hs, h⟩ |
    ⟨a, rest, n, id, sm, si, ref, e, ha, hp, hi, he, hsm, hr, hs, hz, h⟩ |
    ⟨a, rest, n, id, sm, si, ref, size, ha, hp, hi, he, hsm, hr, hs, hz, h⟩
  · subst ha; rw [h]; simp [imageOf, identified]
  · subst ha; rw [h]; simp [imageOf, identified, tHead, hp]
  all_goals
    subst ha
    rw [h]
    simp only [tSize, tSnapshot, tResolve, tCreate, tIdent, tHead, tDefer, identified_append,
      identified_create]
    simp [identified, imageOf, hp]

theorem resolved_Run (env : Env) (cmd : pullCommand) (args : List String) :
    resolved (Run env cmd args).trace
      = (match identifierOf env args, (createSouceManager env).err,
            (createSouceManager env).sm with
         | some id, none, some _ => [id]
         | _, _, _ => []) := by
  rcases Run_cases env cmd args with ⟨ha, h⟩ | ⟨a, rest, e, ha, hp, h⟩ |
    ⟨a, rest, n, e, ha, hp, hi, h⟩ | ⟨a, rest, n, id, e, ha, hp, hi, he, h⟩ |
    ⟨a, rest, n, id, sm, e, ha, hp, hi, he, hsm, hr, h⟩ |
    ⟨a, rest, n, id, sm, si, e, ha, hp, hi, he, hsm, hr, hs, h⟩ |
    ⟨a, rest, n, id, sm, si, ref, e, ha, hp, hi, he, hsm, hr, hs, hz, h⟩ |
    ⟨a, rest, n, id, sm, si, ref, size, ha, hp, hi, he, hsm, hr, hs, hz, h⟩
  · subst ha; rw [h]; simp [identifierOf, imageOf, resolved]
  · subst ha; rw [h]; simp [identifierOf, imageOf, resolved, tHead, hp]
  · subst ha; rw [h]; simp [identifierOf, imageOf, resolved, tIdent, tHead, hp, hi]
  · subst ha
    rw [h]
    simp only [tCreate, tIdent, tHead, tDefer, resolved_append, resolved_create]
    simp [resolved, identifierOf, imageOf, hp, hi, he]
  all_goals
    subst ha
    rw [h]
    simp only [tSize, tSnapshot, tResolve, tCreate, tIdent, tHead, tDefer, resolved_append,
      resolved_create]
    simp [resolved, identifierOf, imageOf, hp, hi, he, hsm]

theorem TagNameOnly_latest (n : Named) (h : IsNameOnly n = true) :
    TagNameOnly { n with tag := some "latest" } = TagNameOnly n := by
  obtain ⟨name, tag, digest⟩ := n
  simp only [IsNameOnly, Bool.and_eq_true, Option.isNone_iff_eq_none] at h
  obtain ⟨rfl, rfl⟩ := h
  simp [TagNameOnly, IsNameOnly]

theorem TagNameOnly_String (n : Named) (h : IsNameOnly n = true) :
    (TagNameOnly n).String = n.String ++ ":latest" := by
  obtain ⟨name, tag, digest⟩ := n
  simp only [IsNameOnly, Bool.and_eq_true, Option.isNone_iff_eq_none] at h
  obtain ⟨rfl, rfl⟩ := h
  simp [TagNameOnly, IsNameOnly, Named.String]

theorem stepError_congr (env : Env) (s t : String)
    (h : imageOf env [s] = imageOf env [t])
    (hs : ∃ n, env.ParseNormalizedNamed s = .ok n)
    (ht : ∃ n, env.ParseNormalizedNamed t = .ok n) (x : Step) :
    stepError env [s] x = stepError env [t] x := by
  obtain ⟨n, hn⟩ := hs
  obtain ⟨m, hm⟩ := ht
  have hid : identifierOf env [s] = identifierOf env [t] := by simp [identifierOf, h]
  have hin : instanceOf env [s] = instanceOf env [t] := by simp [instanceOf, hid]
  have hre : refOf env [s] = refOf env [t] := by simp [refOf, hin]
  cases x <;> simp [stepError, hn, hm, h, hid, hin, hre]

/-! ## Claims -/

theorem contains_end (p q : String) : Contains (p ++ q) q := by
  refine ⟨p.data, [], ?_⟩
  simp [String.data_append]

/-- C1: when the first argument does not parse as an image reference, `Run`
returns the error `not a valid image <quoted input>: <parse error>`, whose
message contains the quoted input and the parse error; the only calls made
are the creation of the context and the parse itself, so nothing inside
`createSouceManager` is called, `Resolve`, `Snapshot` and `Size` are not
called, no call reaches network, disk or standard output, and nothing is
printed. -/
theorem Run_invalid_reference (env : Env) (cmd : pullCommand) (a : String)
    (rest : List String) (e : String) (h : env.ParseNormalizedNamed a = .error e) :
    (Run env cmd (a :: rest)).result
        = .returned (some ("not a valid image " ++ env.quote a ++ ": " ++ e))
      ∧ Contains ("not a valid image " ++ env.quote a ++ ": " ++ e) (env.quote a)
      ∧ Contains ("not a valid image " ++ env.quote a ++ ": " ++ e) e
      ∧ (Run env cmd (a :: rest)).trace
          = [.newContext env.NewID env.namespacesDefault, .parseNormalizedNamed a]
      ∧ (∀ ev ∈ (Run env cmd (a :: rest)).trace,
          ev.isCreate = false ∧ ev.isPull = false ∧ ev.isIO = false)
      ∧ stdout (Run env cmd (a :: rest)).trace = [] := by
  have hrun : Run env cmd (a :: rest) = ⟨tHead env a, ⟨a⟩,
      .returned (some ("not a valid image " ++ env.quote a ++ ": " ++ e))⟩ := by
    simp [Run, h, tHead]
  refine ⟨by rw [hrun], ?_, contains_end _ _, by rw [hrun]; rfl, ?_, ?_⟩
  · refine ⟨("not a valid image ").data, (": " ++ e).data, ?_⟩
    simp [String.data_append]
  · rw [hrun]
    simp [tHead, Event.isCreate, Event.isPull, Event.isIO]
  · rw [hrun]
    simp [tHead, stdout]

/-- Witness of C1 on the example environment, for the input `Library/Alpine`. -/
theorem Run_invalid_reference_witness :
    alpineEnv.ParseNormalizedNamed "Library/Alpine" = .error "invalid reference format"
      ∧ (Run alpineEnv ⟨""⟩ ["Library/Alpine"]).result
        = .returned (some "not a valid image \"Library/Alpine\": invalid reference format")
      ∧ stdout (Run alpineEnv ⟨""⟩ ["Library/Alpine"]).trace = [] :=
  ⟨by decide,
   (Run_invalid_reference alpineEnv ⟨""⟩ "Library/Alpine" [] "invalid reference format"
      (by decide)).1,
   (Run_invalid_reference alpineEnv ⟨""⟩ "Library/Alpine" [] "invalid reference format"
      (by decide)).2.2.2.2.2⟩

/-- C10: `createSouceManager` returns on every path the mount-server handle
that `runc.NewWorkerOpt` returned; the source manager it returns is nil
exactly when its error is non-nil; on success the manager is the one
`source.NewManager` built and exactly one resolver, the source built by
`containerimage.NewSource`, has been registered on it; and the construction
stops at the first failing constructor, whose error is returned (prefixed
with `creating runc worker opt failed: ` for the worker options). -/
theorem createSouceManager_contract (env : Env) :
    (createSouceManager env).fuseserver
        = (env.NewWorkerOpt env.stateDir env.backend).fuseserver
      ∧ ((createSouceManager env).sm = none ↔ (createSouceManager env).err ≠ none)
      ∧ ((createSouceManager env).err = none →
          ∃ cm sm src, env.cacheNewManager (managerOptOf env) = .ok cm
            ∧ env.sourceNewManager = .ok sm
            ∧ env.NewSource (sourceOptOf env cm) = .ok src
            ∧ (createSouceManager env).sm = some sm
            ∧ registrations (createSouceManager env).trace = [(sm, src)]
            ∧ (createSouceManager env).trace = createCalls env cm sm src)
      ∧ (∀ e, (env.NewWorkerOpt env.stateDir env.backend).err = some e →
          (createSouceManager env).err = some ("creating runc worker opt failed: " ++ e)
            ∧ (createSouceManager env).trace = [.newWorkerOpt env.stateDir env.backend])
      ∧ (∀ e, (env.NewWorkerOpt env.stateDir env.backend).err = none →
          env.cacheNewManager (managerOptOf env) = .error e →
          (createSouceManager env).err = some e
            ∧ (createSouceManager env).trace
              = [.newWorkerOpt env.stateDir env.backend, .cacheNewManager (managerOptOf env)])
      ∧ (∀ cm e, (env.NewWorkerOpt env.stateDir env.backend).err = none →
          env.cacheNewManager (managerOptOf env) = .ok cm →
          env.sourceNewManager = .error e →
          (createSouceManager env).err = some e
            ∧ (createSouceManager env).trace
              = [.newWorkerOpt env.stateDir env.backend, .cacheNewManager (managerOptOf env),
                 .sourceNewManager])
      ∧ (∀ cm sm e, (env.NewWorkerOpt env.stateDir env.backend).err = none →
          env.cacheNewManager (managerOptOf env) = .ok cm →
          env.sourceNewManager = .ok sm →
          env.NewSource (sourceOptOf env cm) = .error e →
          (createSouceManager env).err = some e
            ∧ registrations (createSouceManager env).trace = []
            ∧ (createSouceManager env).trace
              = [.newWorkerOpt env.stateDir env.backend, .cacheNewManager (managerOptOf env),
                 .sourceNewManager, .newSource (sourceOptOf env cm)]) := by
  refine ⟨createSouceManager_fuseserver env, createSouceManager_sm_none_iff env, ?_, ?_, ?_,
    ?_, ?_⟩
  · intro herr
    rcases createSouceManager_cases env with ⟨e, _, h⟩ | ⟨e, _, _, h⟩ | ⟨cm, e, _, _, _, h⟩ |
      ⟨cm, sm, e, _, _, _, _, h⟩ | ⟨cm, sm, src, _, hc, hs, hn, h⟩
    · rw [h] at herr; simp at herr
    · rw [h] at herr; simp at herr
    · rw [h] at herr; simp at herr
    · rw [h] at herr; simp at herr
    · exact ⟨cm, sm, src, hc, hs, hn, by rw [h], by rw [h]; simp [registrations, createCalls],
        by rw [h]⟩
  · intro e hw
    rcases createSouceManager_cases env with ⟨e1, hw1, h⟩ | ⟨e1, hw1, _, h⟩ |
      ⟨cm, e1, hw1, _, _, h⟩ | ⟨cm, sm, e1, hw1, _, _, _, h⟩ | ⟨cm, sm, src, hw1, _, _, _, h⟩
    · rw [hw] at hw1; cases hw1; rw [h]; exact ⟨rfl, rfl⟩
    all_goals (rw [hw] at hw1; cases hw1)
  · intro e hw hc
    rcases createSouceManager_cases env with ⟨e1, hw1, h⟩ | ⟨e1, _, hc1, h⟩ |
      ⟨cm, e1, _, hc1, _, h⟩ | ⟨cm, sm, e1, _, hc1, _, _, h⟩ | ⟨cm, sm, src, _, hc1, _, _, h⟩
    · rw [hw] at hw1; cases hw1
    · rw [hc] at hc1; cases hc1; rw [h]; exact ⟨rfl, rfl⟩
    all_goals (rw [hc] at hc1; cases hc1)
  · intro cm e hw hc hs
    rcases createSouceManager_cases env with ⟨e1, hw1, h⟩ | ⟨e1, _, hc1, h⟩ |
      ⟨cm1, e1, _, hc1, hs1, h⟩ | ⟨cm1, sm, e1, _, hc1, hs1, _, h⟩ |
      ⟨cm1, sm, src, _, hc1, hs1, _, h⟩
    · rw [hw] at hw1; cases hw1
    · rw [hc] at hc1; cases hc1
    · rw [hs] at hs1; cases hs1; rw [h]; exact ⟨rfl, rfl⟩
    all_goals (rw [hs] at hs1; cases hs1)
  · intro cm sm e hw hc hs hn
    rcases createSouceManager_cases env with ⟨e1, hw1, h⟩ | ⟨e1, _, hc1, h⟩ |
      ⟨cm1, e1, _, hc1, hs1, h⟩ | ⟨cm1, sm1, e1, _, hc1, hs1, hn1, h⟩ |
      ⟨cm1, sm1, src, _, hc1, hs1, hn1, h⟩
    · rw [hw] at hw1; cases hw1
    · rw [hc] at hc1; cases hc1
    · rw [hs] at hs1; cases hs1
    · rw [hc] at hc1; cases hc1
      rw [hn] at hn1; cases hn1
      rw [h]; exact ⟨rfl, by simp [registrations], rfl⟩
    · rw [hc] at hc1; cases hc1
      rw [hn] at hn1; cases hn1

/-- Witness of C10: in the example environment the construction succeeds, and
with a worker that cannot be created the handle is still handed back. -/
theorem createSouceManager_contract_witness :
    (createSouceManager alpineEnv).err = none
      ∧ (createSouceManager alpineEnv).sm = some ⟨6⟩
      ∧ (createSouceManager alpineEnv).fuseserver = some ⟨7⟩
      ∧ registrations (createSouceManager alpineEnv).trace = [(⟨6⟩, ⟨8⟩)]
      ∧ (createSouceManager noWorkerEnv).err
          = some "creating runc worker opt failed: no runc" :=
  ⟨by decide, by decide, (createSouceManager_contract alpineEnv).1,
   by decide,
   ((createSouceManager_contract noWorkerEnv).2.2.2.1 "no runc" (by decide)).1⟩

/-- C6, as the code has it: with no argument `Run` fails with
`must pass an image or repository to pull` and makes no call at all (no
parse, no I/O); with one argument or more it pulls the first argument and
ignores the others; `Register` leaves the flag set as it is. -/
theorem Run_arguments (env : Env) (cmd : pullCommand) (fs : FlagSet) :
    (Run env cmd []).result
        = .returned (some "must pass an image or repository to pull")
      ∧ (Run env cmd []).trace = []
      ∧ (∀ a rest, Run env cmd (a :: rest) = Run env cmd [a])
      ∧ Register cmd fs = fs :=
  ⟨rfl, rfl, fun _ _ => rfl, rfl⟩

/-- C6 fails as stated: with the two arguments `library/alpine` and `extra`
`Run` does not fail; it parses `library/alpine`, resolves it and prints the
three lines. -/
theorem Run_two_arguments_succeed :
    (Run alpineEnv ⟨""⟩ ["library/alpine", "extra"]).result = .returned none
      ∧ Event.parseNormalizedNamed "library/alpine"
          ∈ (Run alpineEnv ⟨""⟩ ["library/alpine", "extra"]).trace
      ∧ (∃ ev ∈ (Run alpineEnv ⟨""⟩ ["library/alpine", "extra"]).trace, ev.isIO = true)
      ∧ (stdout (Run alpineEnv ⟨""⟩ ["library/alpine", "extra"]).trace).length = 3 := by
  decide

/-- C7, as the code has it: once the identifier is built, an error of
`createSouceManager`, `Resolve`, `Snapshot` or `Size` is returned by `Run`
as it is, without the reference string or anything else added. -/
theorem Run_returns_step_error (env : Env) (cmd : pullCommand) (a : String)
    (rest : List String) (n : Named) (id : Identifier)
    (hp : env.ParseNormalizedNamed a = .ok n)
    (hi : env.NewImageIdentifier (TagNameOnly n).String = .ok id) :
    (∀ e, (createSouceManager env).err = some e →
        (Run env cmd (a :: rest)).result = .returned (some e))
      ∧ (∀ sm e, (createSouceManager env).err = none →
          (createSouceManager env).sm = some sm →
          env.Resolve sm (ctxOf env) id = .error e →
          (Run env cmd (a :: rest)).result = .returned (some e))
      ∧ (∀ sm si e, (createSouceManager env).err = none →
          (createSouceManager env).sm = some sm →
          env.Resolve sm (ctxOf env) id = .ok si →
          env.Snapshot si (ctxOf env) = .error e →
          (Run env cmd (a :: rest)).result = .returned (some e))
      ∧ (∀ sm si ref e, (createSouceManager env).err = none →
          (createSouceManager env).sm = some sm →
          env.Resolve sm (ctxOf env) id = .ok si →
          env.Snapshot si (ctxOf env) = .ok ref →
          env.Size ref (ctxOf env) = .error e →
          (Run env cmd (a :: rest)).result = .returned (some e)) := by
  refine ⟨?_, ?_, ?_, ?_⟩
  · intro e he
    simp [Run, hp, hi, he]
  · intro sm e he hsm hr
    simp only [ctxOf] at hr
    simp [Run, hp, hi, he, hsm, hr]
  · intro sm si e he hsm hr hs
    simp only [ctxOf] at hr hs
    simp [Run, hp, hi, he, hsm, hr, hs]
  · intro sm si ref e he hsm hr hs hz
    simp only [ctxOf] at hr hs hz
    simp [Run, hp, hi, he, hsm, hr, hs, hz]

/-- Witness of C7 as amended: the error of a failing `Resolve` comes back
unchanged. -/
theorem Run_returns_step_error_witness :
    (Run offlineEnv ⟨""⟩ ["library/alpine"]).result
      = .returned (some "connection refused") :=
  (Run_returns_step_error offlineEnv ⟨""⟩ "library/alpine" []
      ⟨"docker.io/library/alpine", none, none⟩ ⟨"docker.io/library/alpine:latest"⟩
      (by decide) (by decide)).2.1 ⟨6⟩ "connection refused" (by decide) (by decide) (by decide)

/-- C7 fails as stated: when `Resolve` fails with `connection refused` while
pulling `library/alpine`, the error `Run` returns is `connection refused`;
it carries neither the reference as supplied nor its normalized form. -/
theorem Run_error_without_reference :
    (Run offlineEnv ⟨""⟩ ["library/alpine"]).result
        = .returned (some "connection refused")
      ∧ ¬ Contains "connection refused" "library/alpine"
      ∧ ¬ Contains "connection refused" "docker.io/library/alpine:latest" := by
  decide

/-- C4: a run of `Run` reaches `createSouceManager` exactly when the argument
is there, parses and yields an identifier.  In such a run `unmount` is
called exactly once, on the mount server `createSouceManager` returned (the
one of `runc.NewWorkerOpt`), and that call is the last call of the run,
after source-manager creation, `Resolve`, `Snapshot` and `Size`, whether
`Run` succeeds or fails.  In a run that does not reach
`createSouceManager`, `unmount` is never called. -/
theorem Run_unmount_once (env : Env) (cmd : pullCommand) (args : List String) :
    ((∃ ev ∈ (Run env cmd args).trace, ev.isCreate = true)
        ↔ ∃ id, identifierOf env args = some id)
      ∧ ((∃ ev ∈ (Run env cmd args).trace, ev.isCreate = true) →
          unmounts (Run env cmd args).trace
              = [(env.NewWorkerOpt env.stateDir env.backend).fuseserver]
            ∧ ∃ pre, (Run env cmd args).trace
                = pre ++ [.unmount (env.NewWorkerOpt env.stateDir env.backend).fuseserver]
              ∧ unmounts pre = [])
      ∧ ((¬ ∃ ev ∈ (Run env cmd args).trace, ev.isCreate = true) →
          unmounts (Run env cmd args).trace = []) := by
  have hfs := createSouceManager_fuseserver env
  obtain ⟨c, hc, hcc⟩ := exists_isCreate env
  rcases Run_cases env cmd args with ⟨ha, h⟩ | ⟨a, rest, e, ha, hp, h⟩ |
    ⟨a, rest, n, e, ha, hp, hi, h⟩ | ⟨a, rest, n, id, e, ha, hp, hi, he, h⟩ |
    ⟨a, rest, n, id, sm, e, ha, hp, hi, he, hsm, hr, h⟩ |
    ⟨a, rest, n, id, sm, si, e, ha, hp, hi, he, hsm, hr, hs, h⟩ |
    ⟨a, rest, n, id, sm, si, ref, e, ha, hp, hi, he, hsm, hr, hs, hz, h⟩ |
    ⟨a, rest, n, id, sm, si, ref, size, ha, hp, hi, he, hsm, hr, hs, hz, h⟩
  · subst ha
    have hno : ¬ ∃ ev ∈ (Run env cmd []).trace, ev.isCreate = true := by rw [h]; simp
    refine ⟨⟨fun hx => absurd hx hno, ?_⟩, fun hx => absurd hx hno, fun _ => by rw [h]; rfl⟩
    simp [identifierOf, imageOf]
  · subst ha
    have hno : ¬ ∃ ev ∈ (Run env cmd (a :: rest)).trace, ev.isCreate = true := by
      rw [h]; simp [tHead, Event.isCreate]
    refine ⟨⟨fun hx => absurd hx hno, ?_⟩, fun hx => absurd hx hno,
      fun _ => by rw [h]; simp [tHead, unmounts]⟩
    simp [identifierOf, imageOf, hp]
  · subst ha
    have hno : ¬ ∃ ev ∈ (Run env cmd (a :: rest)).trace, ev.isCreate = true := by
      rw [h]; simp [tIdent, tHead, Event.isCreate]
    refine ⟨⟨fun hx => absurd hx hno, ?_⟩, fun hx => absurd hx hno,
      fun _ => by rw [h]; simp [tIdent, tHead, unmounts]⟩
    simp [identifierOf, imageOf, hp, hi]
  all_goals
    subst ha
    have hyes : ∃ ev ∈ (Run env cmd (a :: rest)).trace, ev.isCreate = true := by
      refine ⟨c, ?_, hcc⟩
      rw [h]
      simp only [tSize, tSnapshot, tResolve, tCreate, List.mem_append]
      simp [hc]
    refine ⟨⟨fun _ => ⟨id, by simp [identifierOf, imageOf, hp, hi]⟩, fun _ => hyes⟩, ?_,
      fun hx => absurd hyes hx⟩
    intro _
    rw [h, ← hfs]
    simp only [tSize, tSnapshot, tResolve, tCreate, tIdent, tHead, tDefer, unmounts_append,
      unmounts_create]
    refine ⟨by simp [unmounts], ⟨_, rfl, ?_⟩⟩
    simp only [unmounts_append, unmounts_create]
    simp [unmounts]

/-- Witness of C4: in the example run `unmount` is called once, on the mount
server of the worker. -/
theorem Run_unmount_once_witness :
    unmounts (Run alpineEnv ⟨""⟩ ["library/alpine"]).trace = [some ⟨7⟩] :=
  ((Run_unmount_once alpineEnv ⟨""⟩ ["library/alpine"]).2.1 (by decide)).1

/-- C9: `handleSignals` is called exactly once, on the mount server returned
by `createSouceManager`, in a run that reaches `createSouceManager` and in
which it succeeds, and not at all in any other run.  A run without that call
makes no call of `Resolve`, `Snapshot` or `Size`; in a run with it no such
call comes before it, so these three only ever run with the hook installed. -/
theorem Run_signal_hook (env : Env) (cmd : pullCommand) (args : List String) :
    hooks (Run env cmd args).trace
        = (if (identifierOf env args).isSome ∧ (createSouceManager env).err = none
            then [(createSouceManager env).fuseserver] else [])
      ∧ (hooks (Run env cmd args).trace = [] →
          ∀ ev ∈ (Run env cmd args).trace, ev.isPull = false)
      ∧ (hooks (Run env cmd args).trace ≠ [] →
          ∃ pre post, (Run env cmd args).trace
              = pre ++ Event.handleSignals (createSouceManager env).fuseserver :: post
            ∧ (∀ ev ∈ pre, ev.isPull = false) ∧ hooks pre = [] ∧ hooks post = []) := by
  have hpc := isPull_create env
  rcases Run_cases env cmd args with ⟨ha, h⟩ | ⟨a, rest, e, ha, hp, h⟩ |
    ⟨a, rest, n, e, ha, hp, hi, h⟩ | ⟨a, rest, n, id, e, ha, hp, hi, he, h⟩ |
    ⟨a, rest, n, id, sm, e, ha, hp, hi, he, hsm, hr, h⟩ |
    ⟨a, rest, n, id, sm, si, e, ha, hp, hi, he, hsm, hr, hs, h⟩ |
    ⟨a, rest, n, id, sm, si, ref, e, ha, hp, hi, he, hsm, hr, hs, hz, h⟩ |
    ⟨a, rest, n, id, sm, si, ref, size, ha, hp, hi, he, hsm, hr, hs, hz, h⟩
  · subst ha
    have hh : hooks (Run env cmd []).trace = [] := by rw [h]; rfl
    refine ⟨by rw [hh]; simp [identifierOf, imageOf], fun _ => by rw [h]; simp,
      fun hx => absurd hh hx⟩
  · subst ha
    have hh : hooks (Run env cmd (a :: rest)).trace = [] := by rw [h]; simp [tHead, hooks]
    refine ⟨by rw [hh]; simp [identifierOf, imageOf, hp],
      fun _ => by rw [h]; simp [tHead, Event.isPull], fun hx => absurd hh hx⟩
  · subst ha
    have hh : hooks (Run env cmd (a :: rest)).trace = [] := by
      rw [h]; simp [tIdent, tHead, hooks]
    refine ⟨by rw [hh]; simp [identifierOf, imageOf, hp, hi],
      fun _ => by rw [h]; simp [tIdent, tHead, Event.isPull], fun hx => absurd hh hx⟩
  · subst ha
    have hh : hooks (Run env cmd (a :: rest)).trace = [] := by
      rw [h]
      simp only [tCreate, tIdent, tHead, tDefer, hooks_append, hooks_create]
      simp [hooks]
    refine ⟨by rw [hh]; simp [he], ?_, fun hx => absurd hh hx⟩
    intro _ ev hev
    rw [h] at hev
    simp only [tCreate, tIdent, tHead, tDefer, List.mem_append, List.mem_cons,
      List.mem_singleton, List.not_mem_nil, or_false] at hev
    rcases hev with (((rfl | rfl) | rfl) | hev) | rfl
    · rfl
    · rfl
    · rfl
    · exact hpc ev hev
    · rfl
  all_goals
    subst ha
    have hh : hooks (Run env cmd (a :: rest)).trace = [(createSouceManager env).fuseserver] := by
      rw [h]
      simp only [tSize, tSnapshot, tResolve, tCreate, tIdent, tHead, tDefer, hooks_append,
        hooks_create]
      simp [hooks]
    refine ⟨(by rw [hh]; simp [identifierOf, imageOf, hp, hi, he]),
      (fun hx => by rw [hh] at hx; cases hx), fun _ => ?_⟩
    rw [h]
    simp only [tSize, tSnapshot, tResolve, tDefer, List.append_assoc, List.cons_append,
      List.nil_append]
    refine ⟨tCreate env a n, _, rfl, ?_, ?_, ?_⟩
    · intro ev hev
      simp only [tCreate, tIdent, tHead, List.mem_append, List.mem_cons,
        List.mem_singleton, List.not_mem_nil, or_false] at hev
      rcases hev with ((rfl | rfl) | rfl) | hev
      · rfl
      · rfl
      · rfl
      · exact hpc ev hev
    · simp only [tCreate, tIdent, tHead, hooks_append, hooks_create]
      simp [hooks]
    · simp [hooks]

/-- Witness of C9: in the example run the hook is installed once, and not at
all when the worker cannot be created. -/
theorem Run_signal_hook_witness :
    hooks (Run alpineEnv ⟨""⟩ ["library/alpine"]).trace = [some ⟨7⟩]
      ∧ ∀ ev ∈ (Run noWorkerEnv ⟨""⟩ ["library/alpine"]).trace, ev.isPull = false :=
  ⟨by decide, (Run_signal_hook noWorkerEnv ⟨""⟩ ["library/alpine"]).2.1 (by decide)⟩

/-- C3: `Run` always returns (it never panics), and what it returns is the
error of the first step, in the order missing argument, reference parse,
identifier construction, source-manager creation, `Resolve`, `Snapshot`,
`Size`, that fails (nil when there is none).  So it returns nil exactly when
no step fails, and in a failing run no call of a step after the failing one
is made. -/
theorem Run_first_error (env : Env) (cmd : pullCommand) (args : List String) :
    (Run env cmd args).result = .returned ((firstFailure env args).map Prod.snd)
      ∧ ((Run env cmd args).result = .returned none ↔ ∀ s, stepError env args s = none)
      ∧ (∀ s e, firstFailure env args = some (s, e) →
          stepsUpTo s.index (Run env cmd args).trace) := by
  have key := Run_result_and_steps env cmd args
  refine ⟨key.1, ?_, key.2⟩
  rw [key.1, ← firstFailure_eq_none_iff]
  cases hff : firstFailure env args with
  | none => simp
  | some p => simp

/-- Witness of C3: with an unreachable registry the first failing step is
`Resolve`, and no call of `Snapshot` or `Size` is made. -/
theorem Run_first_error_witness :
    firstFailure offlineEnv ["library/alpine"] = some (.resolve, "connection refused")
      ∧ stepsUpTo 4 (Run offlineEnv ⟨""⟩ ["library/alpine"]).trace :=
  ⟨by decide,
   (Run_first_error offlineEnv ⟨""⟩ ["library/alpine"]).2.2 .resolve "connection refused"
     (by decide)⟩

/-- C5: the lines a run of `Run` writes to standard output are a leading part
of the three lines `Pulling <ref>...`, `Snapshot ref: <id>`,
`Size: <human-size>`, with `<ref>` the argument as supplied, `<id>` the ID of
the snapshot and `<human-size>` the rendering of the result of `Size`; a
second line is only written once the snapshot exists, a third only once its
size is known; and all three are written exactly when `Run` returns nil. -/
theorem Run_stdout (env : Env) (cmd : pullCommand) (args : List String) :
    stdout (Run env cmd args).trace <+: expectedLines env args
      ∧ ((Run env cmd args).result = .returned none
          ↔ stdout (Run env cmd args).trace = expectedLines env args)
      ∧ (2 ≤ (stdout (Run env cmd args).trace).length → (refOf env args).isSome = true)
      ∧ (3 ≤ (stdout (Run env cmd args).trace).length → (sizeOf env args).isSome = true) := by
  rcases Run_cases env cmd args with ⟨ha, h⟩ | ⟨a, rest, e, ha, hp, h⟩ |
    ⟨a, rest, n, e, ha, hp, hi, h⟩ | ⟨a, rest, n, id, e, ha, hp, hi, he, h⟩ |
    ⟨a, rest, n, id, sm, e, ha, hp, hi, he, hsm, hr, h⟩ |
    ⟨a, rest, n, id, sm, si, e, ha, hp, hi, he, hsm, hr, hs, h⟩ |
    ⟨a, rest, n, id, sm, si, ref, e, ha, hp, hi, he, hsm, hr, hs, hz, h⟩ |
    ⟨a, rest, n, id, sm, si, ref, size, ha, hp, hi, he, hsm, hr, hs, hz, h⟩
  · subst ha
    have hout : stdout (Run env cmd []).trace = [] := by rw [h]; rfl
    rw [hout, h]
    simp [expectedLines, pullLines]
  · subst ha
    have hout : stdout (Run env cmd (a :: rest)).trace = [] := by
      rw [h]; simp [tHead, stdout]
    rw [hout, h]
    simp [expectedLines, pullLines]
  · subst ha
    have hout : stdout (Run env cmd (a :: rest)).trace = [] := by
      rw [h]; simp [tIdent, tHead, stdout]
    rw [hout, h]
    simp [expectedLines, pullLines]
  · subst ha
    have hout : stdout (Run env cmd (a :: rest)).trace = [] := by
      rw [h]
      simp only [tCreate, tIdent, tHead, tDefer, stdout_append, stdout_create]
      simp [stdout]
    rw [hout, h]
    simp [expectedLines, pullLines]
  · subst ha
    have hout : stdout (Run env cmd (a :: rest)).trace = [] := by
      rw [h]
      simp only [tResolve, tCreate, tIdent, tHead, tDefer, stdout_append, stdout_create]
      simp [stdout]
    rw [hout, h]
    simp [expectedLines, pullLines]
  · subst ha
    have hout : stdout (Run env cmd (a :: rest)).trace = ["Pulling " ++ a ++ "...\n"] := by
      rw [h]
      simp only [tSnapshot, tResolve, tCreate, tIdent, tHead, tDefer, stdout_append,
        stdout_create]
      simp [stdout]
    rw [hout, h]
    simp [expectedLines, pullLines]
  · subst ha
    have hout : stdout (Run env cmd (a :: rest)).trace
        = ["Pulling " ++ a ++ "...\n", "Snapshot ref: " ++ ref.ID ++ "\n"] := by
      rw [h]
      simp only [tSize, tSnapshot, tResolve, tCreate, tIdent, tHead, tDefer, stdout_append,
        stdout_create]
      simp [stdout]
    rw [hout, h]
    simp [expectedLines, pullLines, refOf, instanceOf, identifierOf, imageOf, hp, hi, he, hsm,
      hr, hs]
  · subst ha
    have hout : stdout (Run env cmd (a :: rest)).trace
        = pullLines a ref.ID (env.BytesSize size) := by
      rw [h]
      simp only [tSize, tSnapshot, tResolve, tCreate, tIdent, tHead, tDefer, stdout_append,
        stdout_create]
      simp [stdout, pullLines]
    rw [hout, h]
    simp [expectedLines, pullLines, sizeOf, refOf, instanceOf, identifierOf, imageOf, hp, hi, he,
      hsm, hr, hs, hz]

/-- Witness of C5: the example run writes its three lines. -/
theorem Run_stdout_witness :
    (refOf alpineEnv ["library/alpine"]).isSome = true
      ∧ stdout (Run alpineEnv ⟨""⟩ ["library/alpine"]).trace
          = expectedLines alpineEnv ["library/alpine"] :=
  ⟨(Run_stdout alpineEnv ⟨""⟩ ["library/alpine"]).2.2.1 (by decide),
   (Run_stdout alpineEnv ⟨""⟩ ["library/alpine"]).2.1.mp (by decide)⟩

/-- C2: when the argument `s` parses to a reference with neither tag nor
digest, the string `Run` builds the identifier from is the normalized
reference with `:latest` appended; if the reference library reads
`s ++ ":latest"` as that reference with the tag `latest`, the run on
`s ++ ":latest"` builds the same string, hands the same identifier to
`Resolve` and ends the same way.  For an argument that parses to a
reference with a tag or a digest the normalization changes nothing, and
normalizing twice is normalizing once. -/
theorem Run_tag_latest (env : Env) (cmd : pullCommand) (s : String) (n : Named)
    (hs : env.ParseNormalizedNamed s = .ok n) (hbare : IsNameOnly n = true) :
    identified (Run env cmd [s]).trace = [n.String ++ ":latest"]
      ∧ (env.ParseNormalizedNamed (s ++ ":latest") = .ok { n with tag := some "latest" } →
          identified (Run env cmd [s ++ ":latest"]).trace = [n.String ++ ":latest"]
            ∧ resolved (Run env cmd [s ++ ":latest"]).trace = resolved (Run env cmd [s]).trace
            ∧ (Run env cmd [s ++ ":latest"]).result = (Run env cmd [s]).result)
      ∧ (∀ t m, env.ParseNormalizedNamed t = .ok m → IsNameOnly m = false →
          TagNameOnly m = m ∧ identified (Run env cmd [t]).trace = [m.String])
      ∧ (∀ m, TagNameOnly (TagNameOnly m) = TagNameOnly m) := by
  have h1 : identified (Run env cmd [s]).trace = [n.String ++ ":latest"] := by
    rw [identified_Run]
    simp [imageOf, hs, TagNameOnly_String n hbare]
  refine ⟨h1, ?_, ?_, ?_⟩
  · intro hl
    have him : imageOf env [s ++ ":latest"] = imageOf env [s] := by
      simp [imageOf, hs, hl, TagNameOnly_latest n hbare]
    have hid : identifierOf env [s ++ ":latest"] = identifierOf env [s] := by
      simp [identifierOf, him]
    refine ⟨?_, ?_, ?_⟩
    · rw [identified_Run, him, ← identified_Run env cmd, h1]
    · rw [resolved_Run, resolved_Run, hid]
    · have hff : firstFailure env [s ++ ":latest"] = firstFailure env [s] := by
        simp only [firstFailure]
        congr 1
        funext x
        rw [stepError_congr env (s ++ ":latest") s him ⟨_, hl⟩ ⟨_, hs⟩ x]
      rw [(Run_result_and_steps env cmd [s ++ ":latest"]).1,
        (Run_result_and_steps env cmd [s]).1, hff]
  · intro t m ht hm
    have hT : TagNameOnly m = m := by simp [TagNameOnly, hm]
    refine ⟨hT, ?_⟩
    rw [identified_Run]
    simp [imageOf, ht, hT]
  · intro m
    obtain ⟨name, tag, digest⟩ := m
    cases tag <;> cases digest <;> simp [TagNameOnly, IsNameOnly]

/-- Witness of C2: `library/alpine` is resolved as
`docker.io/library/alpine:latest`, and so is `library/alpine:latest`. -/
theorem Run_tag_latest_witness :
    identified (Run alpineEnv ⟨""⟩ ["library/alpine"]).trace
        = ["docker.io/library/alpine:latest"]
      ∧ resolved (Run alpineEnv ⟨""⟩ ["library/alpine:latest"]).trace
        = resolved (Run alpineEnv ⟨""⟩ ["library/alpine"]).trace :=
  ⟨(Run_tag_latest alpineEnv ⟨""⟩ "library/alpine" ⟨"docker.io/library/alpine", none, none⟩
      (by decide) (by decide)).1,
   ((Run_tag_latest alpineEnv ⟨""⟩ "library/alpine" ⟨"docker.io/library/alpine", none, none⟩
      (by decide) (by decide)).2.1 (by decide)).2.1⟩

/-- C8, as the code has it: when the snapshot of a run has layers of
2,811,567, 0 and 4,413 bytes and `Size` returns their sum, that sum is
2,815,980 and the run prints `Pulling <ref>...`, `Snapshot ref: <id>` and
`Size: ` followed by the rendering `units.BytesSize` gives for 2,815,980;
go-units renders that value in units of 1024 with four significant digits,
as `2.686MiB`. -/
theorem Run_size_line (env : Env) (cmd : pullCommand) (args : List String)
    (ref : ImmutableRef) (href : refOf env args = some ref)
    (hlayers : ref.layers = [2811567, 0, 4413])
    (hsize : sizeOf env args = some (chainSize ref.layers)) :
    chainSize ref.layers = 2815980
      ∧ (Run env cmd args).result = .returned none
      ∧ stdout (Run env cmd args).trace
          = pullLines (args.headD "") ref.ID (env.BytesSize 2815980)
      ∧ BytesSize 2815980 = "2.686MiB" := by
  have hsum : chainSize ref.layers = 2815980 := by rw [hlayers]; decide
  have hexp : expectedLines env args
      = pullLines (args.headD "") ref.ID (env.BytesSize 2815980) := by
    simp [expectedLines, href, hsize, hsum]
  have hnil : (Run env cmd args).result = .returned none := by
    have hnone : firstFailure env args = none := by
      rw [firstFailure_eq_none_iff]
      have hin : ∃ si, instanceOf env args = some si := by
        cases hx : instanceOf env args with
        | none => simp [refOf, hx] at href
        | some si => exact ⟨si, rfl⟩
      obtain ⟨si, hsi⟩ := hin
      have hs : env.Snapshot si (ctxOf env) = .ok ref := by
        cases hx : env.Snapshot si (ctxOf env) with
        | error e => simp [refOf, hsi, hx] at href
        | ok r => simp [refOf, hsi, hx] at href; rw [href]
      have hz : env.Size ref (ctxOf env) = .ok (chainSize ref.layers) := by
        cases hx : env.Size ref (ctxOf env) with
        | error e => simp [sizeOf, href, hx] at hsize
        | ok z => simp [sizeOf, href, hx] at hsize; rw [hsize]
      have hid : ∃ id, identifierOf env args = some id := by
        cases hx : identifierOf env args with
        | none => simp [instanceOf, hx] at hsi
        | some id => exact ⟨id, rfl⟩
      obtain ⟨id, hid⟩ := hid
      have he : (createSouceManager env).err = none := by
        cases hx : (createSouceManager env).err with
        | none => rfl
        | some e => simp [instanceOf, hid, hx] at hsi
      have hsm : ∃ sm, (createSouceManager env).sm = some sm := by
        cases hx : (createSouceManager env).sm with
        | none => simp [instanceOf, hid, he, hx] at hsi
        | some sm => exact ⟨sm, rfl⟩
      obtain ⟨sm, hsm⟩ := hsm
      have hr : env.Resolve sm (ctxOf env) id = .ok si := by
        cases hx : env.Resolve sm (ctxOf env) id with
        | error e => simp [instanceOf, hid, he, hsm, hx] at hsi
        | ok r => simp [instanceOf, hid, he, hsm, hx] at hsi; rw [hsi]
      have him : ∃ image, imageOf env args = some image := by
        cases hx : imageOf env args with
        | none => simp [identifierOf, hx] at hid
        | some image => exact ⟨image, rfl⟩
      obtain ⟨image, him⟩ := him
      have hi : env.NewImageIdentifier image.String = .ok id := by
        cases hx : env.NewImageIdentifier image.String with
        | error e => simp [identifierOf, him, hx] at hid
        | ok r => simp [identifierOf, him, hx] at hid; rw [hid]
      cases args with
      | nil => simp [imageOf] at him
      | cons a rest =>
        cases hp : env.ParseNormalizedNamed a with
        | error e => simp [imageOf, hp] at him
        | ok n =>
          intro s
          cases s <;> simp [stepError, hp, him, hi, he, hid, hsm, hr, hsi, hs, href, hz]
    rw [(Run_result_and_steps env cmd args).1, hnone]
    rfl
  refine ⟨hsum, hnil, ?_, by decide⟩
  rw [← hexp]
  rcases Run_cases env cmd args with ⟨ha, h⟩ | ⟨a, rest, e, ha, hp, h⟩ |
    ⟨a, rest, n, e, ha, hp, hi, h⟩ | ⟨a, rest, n, id, e, ha, hp, hi, he, h⟩ |
    ⟨a, rest, n, id, sm, e, ha, hp, hi, he, hsm, hr, h⟩ |
    ⟨a, rest, n, id, sm, si, e, ha, hp, hi, he, hsm, hr, hs, h⟩ |
    ⟨a, rest, n, id, sm, si, r, e, ha, hp, hi, he, hsm, hr, hs, hz, h⟩ |
    ⟨a, rest, n, id, sm, si, r, size, ha, hp, hi, he, hsm, hr, hs, hz, h⟩
  · rw [h] at hnil; cases hnil
  · rw [h] at hnil; cases hnil
  · rw [h] at hnil; cases hnil
  · rw [h] at hnil; cases hnil
  · rw [h] at hnil; cases hnil
  · rw [h] at hnil; cases hnil
  · rw [h] at hnil; cases hnil
  · subst ha
    rw [h]
    simp only [tSize, tSnapshot, tResolve, tCreate, tIdent, tHead, tDefer, stdout_append,
      stdout_create]
    simp [stdout, expectedLines, pullLines, sizeOf, refOf, instanceOf, identifierOf, imageOf, hp,
      hi, he, hsm, hr, hs, hz]

/-- Witness of C8 as amended, on the example environment. -/
theorem Run_size_line_witness :
    stdout (Run alpineEnv ⟨""⟩ ["library/alpine"]).trace
      = pullLines "library/alpine" "sha256:a1" (alpineEnv.BytesSize 2815980) :=
  (Run_size_line alpineEnv ⟨""⟩ ["library/alpine"] ⟨"sha256:a1", [2811567, 0, 4413]⟩
    (by decide) rfl (by decide)).2.2.1

/-- C8 fails as stated: in the example scenario the size reported is
2,815,980 bytes, and the third line `Run` prints is `Size: 2.686MiB`, not
the `2.82MB` rendering. -/
theorem Run_alpine_size_rendering :
    chainSize [2811567, 0, 4413] = 2815980
      ∧ stdout (Run alpineEnv ⟨""⟩ ["library/alpine"]).trace
          = ["Pulling library/alpine...\n", "Snapshot ref: sha256:a1\n", "Size: 2.686MiB\n"]
      ∧ "Size: 2.82MB\n" ∉ stdout (Run alpineEnv ⟨""⟩ ["library/alpine"]).trace := by
  decide

end Img
